import Mathlib

/-!
# Language options of the C front end (`include/clang/Basic/LangOptions.h`)

A shallow embedding of the classes declared in `LangOptions.h`:

* `LangOptionsBase` / `LangOptions`: the bit-fields generated from
  `clang/Basic/LangOptions.def` by the `LANGOPT` and `ENUM_LANGOPT` macros, the
  generated `get##Name` / `set##Name` accessors, `isSignedOverflowDefined`;
* `FPOptions`: the one-bit floating point snapshot;
* `OpenCLOptions`: the extension bits generated from
  `clang/Basic/OpenCLExtensions.def`.

Conventions.  A value of an enumeration type is represented by its underlying
integer.  `static_cast<unsigned>` is reduction modulo `2 ^ 32`, and assigning to a
bit-field `unsigned Name : Bits` keeps the low `Bits` bits.  The two `.def` files
are not part of the sources at hand, so the list of options (widths, defaults,
enumeration types) and the list of extensions are parameters of the development.
The intrusive reference count inherited from `RefCountedBase` carries no option
value and is left out.
-/

namespace clang

/-! ## Machine arithmetic -/

/-- Conversion to `unsigned` (`static_cast<unsigned>(x)`, or the implicit conversion
of the right-hand side of an assignment to an `unsigned` bit-field). -/
def toUnsigned (x : Nat) : Nat := x % 2 ^ 32

/-- Value held by a bit-field `unsigned Name : Bits` after `Name = x` for an
`unsigned` value `x`: the low `Bits` bits. -/
def storeBits (Bits : Nat) (x : Nat) : Nat := x % 2 ^ Bits

/-- The value `v` survives conversion to `unsigned` and storage in `Bits` bits. -/
def Representable (Bits : Nat) (v : Nat) : Prop := v < 2 ^ Bits ∧ v < 2 ^ 32

instance (Bits v : Nat) : Decidable (Representable Bits v) := by
  unfold Representable; exact inferInstance

/-! ## The option registry (`LangOptions.def`) -/

/-- Names of the bit-fields declared through `LANGOPT` (public members of
`LangOptionsBase`).  The header reads `DefaultFPContract`, `OpenCL` and
`OpenCLVersion` directly; `other k` stands for the remaining entries of
`LangOptions.def`. -/
inductive PlainOpt where
  | DefaultFPContract
  | OpenCL
  | OpenCLVersion
  | other (k : Nat)
  deriving DecidableEq

/-- Names of the bit-fields declared through `ENUM_LANGOPT` (protected members of
`LangOptionsBase`, reached through `get##Name` / `set##Name`).  The header calls
`getSignedOverflowBehavior`; `other k` stands for the remaining entries. -/
inductive EnumOpt where
  | SignedOverflowBehavior
  | other (k : Nat)
  deriving DecidableEq

/-- One `LANGOPT(Name, Bits, Default, Description)` entry.  The flag `modular` is the
per-entry classification used by `resetNonModularOptions`. -/
structure PlainEntry where
  Bits : Nat
  Default : Nat
  modular : Bool
  deriving DecidableEq

/-- One `ENUM_LANGOPT(Name, Type, Bits, Default, Description)` entry.  `enumerators`
lists the underlying values of the enumerators of `Type`. -/
structure EnumEntry where
  enumerators : List Nat
  Bits : Nat
  Default : Nat
  modular : Bool
  deriving DecidableEq

/-- The contents of `LangOptions.def`, a parameter of the development. -/
structure OptionTable where
  plainEntry : PlainOpt → PlainEntry
  enumEntry : EnumOpt → EnumEntry

/-- Modelled from the spec: `LangOptions.def`, which fixes the width of every
field, is not among the sources.  This is the Option Storage invariant of the
spec for one ENUM entry: the field width suffices to represent every value its
enumeration can take. -/
def OptionTable.WidthSuffices (T : OptionTable) (o : EnumOpt) : Prop :=
  ∀ v ∈ (T.enumEntry o).enumerators, Representable (T.enumEntry o).Bits v

instance (T : OptionTable) (o : EnumOpt) : Decidable (T.WidthSuffices o) := by
  unfold OptionTable.WidthSuffices; exact inferInstance

/-- Modelled from the spec: the registry `LangOptions.def`, which gives every ENUM
entry its enumeration type and its width, is not among the sources.  The spec's
data model: an option entry has a name, a bit width, a default and a kind, and
Option Storage packs the entries under the invariant that "every field width
suffices to represent every value its enumeration can take - no value is ever
truncated".  A registry of the spec is an option table that meets this invariant
at every ENUM entry. -/
structure Registry where
  table : OptionTable
  widthSuffices : ∀ o, table.WidthSuffices o

/-! ## Enumerations declared in `LangOptions` -/

/-- Enumerator `NonGC` of `enum GCMode`. -/
def NonGC : Nat := 0
/-- Enumerator `GCOnly` of `enum GCMode`. -/
def GCOnly : Nat := 1
/-- Enumerator `HybridGC` of `enum GCMode`. -/
def HybridGC : Nat := 2

/-- Enumerator `SSPOff` of `enum StackProtectorMode`. -/
def SSPOff : Nat := 0
/-- Enumerator `SSPOn` of `enum StackProtectorMode`. -/
def SSPOn : Nat := 1
/-- Enumerator `SSPReq` of `enum StackProtectorMode`. -/
def SSPReq : Nat := 2

/-- Enumerator `SOB_Undefined` of `enum SignedOverflowBehaviorTy` (default C
standard behaviour). -/
def SOB_Undefined : Nat := 0
/-- Enumerator `SOB_Defined` of `enum SignedOverflowBehaviorTy` (`-fwrapv`). -/
def SOB_Defined : Nat := 1
/-- Enumerator `SOB_Trapping` of `enum SignedOverflowBehaviorTy` (`-ftrapv`). -/
def SOB_Trapping : Nat := 2

/-- Enumerator `FPC_Off` of `enum FPContractModeKind`. -/
def FPC_Off : Nat := 0
/-- Enumerator `FPC_On` of `enum FPContractModeKind`. -/
def FPC_On : Nat := 1
/-- Enumerator `FPC_Fast` of `enum FPContractModeKind`. -/
def FPC_Fast : Nat := 2

/-- The enumerators of `enum SignedOverflowBehaviorTy`. -/
def SignedOverflowBehaviorTy : List Nat := [SOB_Undefined, SOB_Defined, SOB_Trapping]

/-! ## `LangOptionsBase` and `LangOptions` -/

/-- Modelled from the spec: the runtime descriptor `clang::ObjCRuntime` is declared
in `clang/Basic/ObjCRuntime.h`, which is not among the sources.  The spec only
says that it has a default variant; variants are numbered here and the default
one is number `0`. -/
structure ObjCRuntime where
  variant : Nat
  deriving DecidableEq

/-- Modelled from the spec: the default variant of the runtime descriptor (the
value of a default-constructed `clang::ObjCRuntime`). -/
def ObjCRuntime.defaultVariant : ObjCRuntime := ⟨0⟩

/-- Bit-fields of `LangOptions`: one `unsigned Name : Bits` member per entry of
`LangOptions.def`, the `LANGOPT` ones public, the `ENUM_LANGOPT` ones protected. -/
structure LangOptionsBase where
  plainField : PlainOpt → Nat
  enumField : EnumOpt → Nat

/-- The class `LangOptions`: the bit-fields plus the runtime descriptor and the
three string members. -/
structure LangOptions extends LangOptionsBase where
  ObjCRuntime : clang.ObjCRuntime
  ObjCConstantStringClass : String
  OverflowHandler : String
  CurrentModule : String

/-- Public bit-field `DefaultFPContract`. -/
def LangOptions.DefaultFPContract (c : LangOptions) : Nat :=
  c.plainField PlainOpt.DefaultFPContract

/-- Public bit-field `OpenCL`. -/
def LangOptions.OpenCL (c : LangOptions) : Nat := c.plainField PlainOpt.OpenCL

/-- Public bit-field `OpenCLVersion`. -/
def LangOptions.OpenCLVersion (c : LangOptions) : Nat :=
  c.plainField PlainOpt.OpenCLVersion

/-- Accessor `Type get##Name() const { return static_cast<Type>(Name); }`. -/
def LangOptions.get (c : LangOptions) (Name : EnumOpt) : Nat := c.enumField Name

/-- Mutator `void set##Name(Type Value) { Name = static_cast<unsigned>(Value); }`;
`Name` is a bit-field of width `Bits`. -/
def LangOptions.set (T : OptionTable) (c : LangOptions) (Name : EnumOpt) (Value : Nat) :
    LangOptions :=
  { c with
    enumField :=
      Function.update c.enumField Name (storeBits (T.enumEntry Name).Bits (toUnsigned Value)) }

/-- Accessor `getSignedOverflowBehavior`, the instance of `get##Name` at
`SignedOverflowBehavior`. -/
def LangOptions.getSignedOverflowBehavior (c : LangOptions) : Nat :=
  c.get EnumOpt.SignedOverflowBehavior

/-- Mutator `setSignedOverflowBehavior`, the instance of `set##Name` at
`SignedOverflowBehavior`. -/
def LangOptions.setSignedOverflowBehavior (T : OptionTable) (c : LangOptions) (Value : Nat) :
    LangOptions :=
  c.set T EnumOpt.SignedOverflowBehavior Value

/-- Query `isSignedOverflowDefined`:
`return getSignedOverflowBehavior() == SOB_Defined;`. -/
def LangOptions.isSignedOverflowDefined (c : LangOptions) : Bool :=
  c.getSignedOverflowBehavior == SOB_Defined

/-- Modelled from the spec: the constructor `LangOptions::LangOptions()` is only
declared in the header, its body is in a source file that is not at hand.  The
spec: it "produces an object with every PLAIN and ENUM field set to its
documented default, every string field empty, and the runtime descriptor set to
its default variant".  Each field is set by an assignment to its bit-field. -/
def LangOptions.Construct (T : OptionTable) : LangOptions where
  plainField := fun p => storeBits (T.plainEntry p).Bits (toUnsigned (T.plainEntry p).Default)
  enumField := fun o => storeBits (T.enumEntry o).Bits (toUnsigned (T.enumEntry o).Default)
  ObjCRuntime := ObjCRuntime.defaultVariant
  ObjCConstantStringClass := ""
  OverflowHandler := ""
  CurrentModule := ""

/-- Modelled from the spec: `LangOptions::resetNonModularOptions()` is only declared
in the header, its body is in a source file that is not at hand.  The spec: it
"mutates the object in place, restoring to default every field classified as
non-modular while leaving every field classified modular untouched".  A restored
field is set by an assignment to its bit-field; the spec names no other member,
so the runtime descriptor and the strings are kept. -/
def LangOptions.resetNonModularOptions (T : OptionTable) (c : LangOptions) : LangOptions :=
  { c with
    plainField := fun p =>
      if (T.plainEntry p).modular then c.plainField p
      else storeBits (T.plainEntry p).Bits (toUnsigned (T.plainEntry p).Default)
    enumField := fun o =>
      if (T.enumEntry o).modular then c.enumField o
      else storeBits (T.enumEntry o).Bits (toUnsigned (T.enumEntry o).Default) }

/-- Modelled from the spec: the documented default of every entry of
`LangOptions.def` (a file that is not at hand) is a value its field can hold, by
the Option Storage invariant that no value is ever truncated. -/
def OptionTable.DefaultsFit (T : OptionTable) : Prop :=
  (∀ p, Representable (T.plainEntry p).Bits (T.plainEntry p).Default) ∧
  (∀ o, Representable (T.enumEntry o).Bits (T.enumEntry o).Default)

/-! ## `FPOptions` -/

/-- Floating point control options: the single bit-field `unsigned fp_contract : 1`. -/
structure FPOptions where
  fp_contract : Nat
  deriving DecidableEq

/-- Default constructor `FPOptions() : fp_contract(0) {}`. -/
def FPOptions.Construct : FPOptions := ⟨storeBits 1 (toUnsigned 0)⟩

/-- Constructor `FPOptions(const LangOptions &LangOpts) :
fp_contract(LangOpts.DefaultFPContract) {}`. -/
def FPOptions.ConstructFrom (LangOpts : LangOptions) : FPOptions :=
  ⟨storeBits 1 (toUnsigned LangOpts.DefaultFPContract)⟩

/-! ## `OpenCLOptions` -/

/-- One line of `OpenCLExtensions.def`: an extension listed through `OPENCLEXT`, or
a version-gated one listed through `OPENCLEXT_1_2`. -/
inductive ExtEntry where
  | OPENCLEXT (nm : String)
  | OPENCLEXT_1_2 (nm : String)
  deriving DecidableEq

/-- Name of the bit-field an entry of `OpenCLExtensions.def` declares. -/
def ExtEntry.nm : ExtEntry → String
  | ExtEntry.OPENCLEXT nm => nm
  | ExtEntry.OPENCLEXT_1_2 nm => nm

/-- The members of `OpenCLOptions`: one bit-field `unsigned nm : 1` per entry of
`OpenCLExtensions.def`, addressed by name. -/
structure OpenCLOptions where
  ext : String → Nat

/-- Assignment `nm = v;` to the one-bit member `nm`. -/
def OpenCLOptions.assign (self : OpenCLOptions) (nm : String) (v : Nat) : OpenCLOptions :=
  ⟨Function.update self.ext nm (storeBits 1 (toUnsigned v))⟩

/-- Statement generated in the constructor body for one entry of
`OpenCLExtensions.def`: `nm = 0;` for `OPENCLEXT(nm)`, and for `OPENCLEXT_1_2(nm)`
`if (LangOpts.OpenCL) { if (LangOpts.OpenCLVersion >= 120) { nm = 1; } else { nm = 0; } }`,
which has no branch for `LangOpts.OpenCL == 0`. -/
def OpenCLOptions.expand (LangOpts : LangOptions) (self : OpenCLOptions) :
    ExtEntry → OpenCLOptions
  | ExtEntry.OPENCLEXT nm => self.assign nm 0
  | ExtEntry.OPENCLEXT_1_2 nm =>
    if LangOpts.OpenCL ≠ 0 then
      if LangOpts.OpenCLVersion ≥ 120 then self.assign nm 1 else self.assign nm 0
    else self

/-- Constructor `OpenCLOptions(LangOptions LangOpts)`.  It has no member initializers,
so on entry the bit-fields hold whatever the storage of the object held
(`storage`); the body then runs the statement of every entry of
`OpenCLExtensions.def` (`exts`) in order. -/
def OpenCLOptions.Construct (exts : List ExtEntry) (LangOpts : LangOptions)
    (storage : OpenCLOptions) : OpenCLOptions :=
  exts.foldl (OpenCLOptions.expand LangOpts) storage

/-- No two entries of `OpenCLExtensions.def` declare the same member. -/
def ExtList.WellFormed (exts : List ExtEntry) : Prop := (exts.map ExtEntry.nm).Nodup

instance (exts : List ExtEntry) : Decidable (ExtList.WellFormed exts) := by
  unfold ExtList.WellFormed; exact inferInstance

/-! ## Sample data -/

/-- A sample registry: one-bit flags with default `0`, a 32-bit `OpenCLVersion`,
and two-bit enumeration fields over three enumerators; the options `other k`
with odd `k` are non-modular. -/
def sampleTable : OptionTable where
  plainEntry := fun p =>
    match p with
    | PlainOpt.OpenCLVersion => ⟨32, 0, true⟩
    | PlainOpt.other k => ⟨1, 0, k % 2 == 0⟩
    | _ => ⟨1, 0, true⟩
  enumEntry := fun o =>
    match o with
    | EnumOpt.SignedOverflowBehavior => ⟨SignedOverflowBehaviorTy, 2, SOB_Undefined, true⟩
    | EnumOpt.other k => ⟨[0, 1, 2], 2, 1, k % 2 == 0⟩

/-- The sample registry meets the width invariant: its enumeration fields are two
bits wide and their enumerators are 0, 1 and 2. -/
def sampleRegistry : Registry where
  table := sampleTable
  widthSuffices := fun o => by
    cases o with
    | SignedOverflowBehavior => decide
    | other k =>
      show ∀ v ∈ [0, 1, 2], Representable 2 v
      decide

/-- A sample configuration over `sampleTable`: OpenCL 1.2 is active, contraction is
on, signed overflow wraps, and the non-modular option `other 1` is set. -/
def sampleOptions : LangOptions where
  plainField := fun p =>
    match p with
    | PlainOpt.DefaultFPContract => 1
    | PlainOpt.OpenCL => 1
    | PlainOpt.OpenCLVersion => 120
    | PlainOpt.other k => if k = 1 then 1 else 0
  enumField := fun o =>
    match o with
    | EnumOpt.SignedOverflowBehavior => SOB_Defined
    | EnumOpt.other _ => 0
  ObjCRuntime := ⟨3⟩
  ObjCConstantStringClass := "NSConstantString"
  OverflowHandler := "handler"
  CurrentModule := "M"

/-- The sample configuration with the OpenCL family switched off (the version field
still reads 120). -/
def sampleOptionsNoOpenCL : LangOptions :=
  { sampleOptions with
    plainField := Function.update sampleOptions.plainField PlainOpt.OpenCL 0 }

/-- The sample configuration with the version field raised to 200 (OpenCL still
active). -/
def sampleOptionsVersion200 : LangOptions :=
  { sampleOptions with
    plainField := Function.update sampleOptions.plainField PlainOpt.OpenCLVersion 200 }

/-- A sample extension list: one plain extension and one version-gated extension. -/
def sampleExtensions : List ExtEntry :=
  [ExtEntry.OPENCLEXT "cl_khr_fp16", ExtEntry.OPENCLEXT_1_2 "cl_khr_gl_msaa_sharing"]

/-- Storage in which every extension bit reads 1 before the constructor runs. -/
def storageAllOnes : OpenCLOptions := ⟨fun _ => 1⟩

/-- Storage in which every extension bit reads 0 before the constructor runs. -/
def storageAllZeros : OpenCLOptions := ⟨fun _ => 0⟩

/-! ## Lemmas on the arithmetic -/

theorem storeBits_toUnsigned_of_representable {Bits v : Nat} (h : Representable Bits v) :
    storeBits Bits (toUnsigned v) = v := by
  unfold storeBits toUnsigned
  rw [Nat.mod_eq_of_lt h.2, Nat.mod_eq_of_lt h.1]

theorem storeBits_one_toUnsigned (v : Nat) : storeBits 1 (toUnsigned v) = v % 2 := by
  unfold storeBits toUnsigned
  have h : (2 : Nat) ^ 32 = 2 * 2 ^ 31 := by norm_num
  rw [h, pow_one, Nat.mod_mul_right_mod]

/-! ## Lemmas on the constructor of `OpenCLOptions` -/

theorem OpenCLOptions.assign_ext_same (self : OpenCLOptions) (nm : String) (v : Nat) :
    (self.assign nm v).ext nm = storeBits 1 (toUnsigned v) := by
  simp [OpenCLOptions.assign]

theorem OpenCLOptions.assign_ext_other (self : OpenCLOptions) {nm n : String} (v : Nat)
    (h : n ≠ nm) : (self.assign nm v).ext n = self.ext n := by
  simp [OpenCLOptions.assign, Function.update_noteq h]

/-- The statement of an entry writes no member other than the one the entry names. -/
theorem OpenCLOptions.expand_ext_other (LangOpts : LangOptions) (self : OpenCLOptions)
    (e : ExtEntry) {n : String} (h : n ≠ e.nm) :
    (OpenCLOptions.expand LangOpts self e).ext n = self.ext n := by
  cases e with
  | OPENCLEXT nm => exact OpenCLOptions.assign_ext_other self 0 h
  | OPENCLEXT_1_2 nm =>
    unfold OpenCLOptions.expand
    split_ifs
    · exact OpenCLOptions.assign_ext_other self 1 h
    · exact OpenCLOptions.assign_ext_other self 0 h
    · rfl

/-- A member that no entry of the list names keeps the value the storage had. -/
theorem OpenCLOptions.Construct_ext_of_not_mem (LangOpts : LangOptions) (exts : List ExtEntry)
    (storage : OpenCLOptions) {n : String} (h : n ∉ exts.map ExtEntry.nm) :
    (OpenCLOptions.Construct exts LangOpts storage).ext n = storage.ext n := by
  unfold OpenCLOptions.Construct
  induction exts generalizing storage with
  | nil => rfl
  | cons a t ih =>
    simp only [List.map_cons, List.mem_cons, not_or] at h
    rw [List.foldl_cons, ih _ h.2]
    exact OpenCLOptions.expand_ext_other LangOpts storage a h.1

/-- What the statement of an entry leaves in the member it names does not depend on
the other members. -/
theorem OpenCLOptions.expand_ext_congr (LangOpts : LangOptions) (s s2 : OpenCLOptions)
    (e : ExtEntry) (h : s.ext e.nm = s2.ext e.nm) :
    (OpenCLOptions.expand LangOpts s e).ext e.nm = (OpenCLOptions.expand LangOpts s2 e).ext e.nm := by
  cases e with
  | OPENCLEXT nm => simp [OpenCLOptions.expand, OpenCLOptions.assign, ExtEntry.nm]
  | OPENCLEXT_1_2 nm =>
    unfold OpenCLOptions.expand
    split_ifs
    · simp [OpenCLOptions.assign, ExtEntry.nm]
    · simp [OpenCLOptions.assign, ExtEntry.nm]
    · exact h

/-- In a list without repeated names, the member an entry names ends up with what
the statement of that entry leaves in it when run on the initial storage. -/
theorem OpenCLOptions.Construct_ext_of_mem (LangOpts : LangOptions) (exts : List ExtEntry)
    (storage : OpenCLOptions) (hwf : ExtList.WellFormed exts) {e : ExtEntry} (he : e ∈ exts) :
    (OpenCLOptions.Construct exts LangOpts storage).ext e.nm =
      (OpenCLOptions.expand LangOpts storage e).ext e.nm := by
  unfold ExtList.WellFormed at hwf
  induction exts generalizing storage with
  | nil => cases he
  | cons a t ih =>
    rw [List.map_cons, List.nodup_cons] at hwf
    rcases List.mem_cons.mp he with rfl | hmem
    · exact OpenCLOptions.Construct_ext_of_not_mem LangOpts t _ hwf.1
    · have hne : e.nm ≠ a.nm := by
        intro heq
        exact hwf.1 (heq ▸ List.mem_map_of_mem ExtEntry.nm hmem)
      have hstep : (OpenCLOptions.Construct (a :: t) LangOpts storage) =
          OpenCLOptions.Construct t LangOpts (OpenCLOptions.expand LangOpts storage a) := rfl
      rw [hstep, ih _ hwf.2 hmem]
      exact OpenCLOptions.expand_ext_congr LangOpts _ _ e
        (OpenCLOptions.expand_ext_other LangOpts storage a hne)

/-- With the OpenCL family inactive, the constructor leaves a version-gated member
as the storage had it: the generated statement has no branch for that case. -/
theorem OpenCLOptions.Construct_gated_inactive (LangOpts : LangOptions) (exts : List ExtEntry)
    (storage : OpenCLOptions) (hwf : ExtList.WellFormed exts) (hcl : LangOpts.OpenCL = 0)
    {nm : String} (he : ExtEntry.OPENCLEXT_1_2 nm ∈ exts) :
    (OpenCLOptions.Construct exts LangOpts storage).ext nm = storage.ext nm := by
  have h := OpenCLOptions.Construct_ext_of_mem LangOpts exts storage hwf he
  simpa [ExtEntry.nm, OpenCLOptions.expand, hcl] using h

/-! ## Enumeration accessors -/

/-- On any option table, `get` after `set v` returns `v` exactly when `v` survives the
cast to `unsigned` and the store into the `Bits`-wide field. -/
theorem set_get_eq_iff_representable (T : OptionTable) (c : LangOptions) (Name : EnumOpt)
    (v : Nat) :
    (c.set T Name v).get Name = v ↔ Representable (T.enumEntry Name).Bits v := by
  unfold LangOptions.get LangOptions.set
  simp only [Function.update_same]
  constructor
  · intro h
    unfold storeBits toUnsigned at h
    have hpos : 0 < 2 ^ (T.enumEntry Name).Bits := pow_pos (by decide) _
    have h1 : v % 2 ^ 32 % 2 ^ (T.enumEntry Name).Bits < 2 ^ (T.enumEntry Name).Bits :=
      Nat.mod_lt _ hpos
    have h2 : v % 2 ^ 32 % 2 ^ (T.enumEntry Name).Bits ≤ v % 2 ^ 32 := Nat.mod_le _ _
    have h3 : v % 2 ^ 32 < 2 ^ 32 := Nat.mod_lt _ (by decide)
    exact ⟨by omega, by omega⟩
  · exact storeBits_toUnsigned_of_representable

/-- Claim C2: `isSignedOverflowDefined` is true exactly when
`getSignedOverflowBehavior` returns `SOB_Defined`; it is false when the field
holds `SOB_Undefined` and false when it holds `SOB_Trapping`. -/
theorem isSignedOverflowDefined_iff (c : LangOptions) :
    (c.isSignedOverflowDefined = true ↔ c.getSignedOverflowBehavior = SOB_Defined) ∧
    (c.getSignedOverflowBehavior = SOB_Undefined → c.isSignedOverflowDefined = false) ∧
    (c.getSignedOverflowBehavior = SOB_Trapping → c.isSignedOverflowDefined = false) := by
  unfold LangOptions.isSignedOverflowDefined
  refine ⟨by simp, ?_, ?_⟩
  · intro h
    rw [h]
    decide
  · intro h
    rw [h]
    decide

/-- Witness of C2: the three values of the field, set through the mutator on the
sample configuration. -/
theorem isSignedOverflowDefined_iff_witness :
    (sampleOptions.setSignedOverflowBehavior sampleTable SOB_Defined).isSignedOverflowDefined
      = true ∧
    (sampleOptions.setSignedOverflowBehavior sampleTable SOB_Undefined).isSignedOverflowDefined
      = false ∧
    (sampleOptions.setSignedOverflowBehavior sampleTable SOB_Trapping).isSignedOverflowDefined
      = false :=
  ⟨(isSignedOverflowDefined_iff
      (sampleOptions.setSignedOverflowBehavior sampleTable SOB_Defined)).1.mpr (by decide),
    (isSignedOverflowDefined_iff
      (sampleOptions.setSignedOverflowBehavior sampleTable SOB_Undefined)).2.1 (by decide),
    (isSignedOverflowDefined_iff
      (sampleOptions.setSignedOverflowBehavior sampleTable SOB_Trapping)).2.2 (by decide)⟩

/-! ## Extension gates -/

/-- Claim C3, the code at a failing input: with the OpenCL family inactive
(`OpenCL = 0`) and member storage that read 1 before construction, the
version-gated extension of the sample list is still 1 after the constructor ran,
because the constructor never writes it. -/
theorem OpenCLOptions_inactive_gated_left_set :
    sampleOptionsNoOpenCL.OpenCL = 0 ∧
    ExtEntry.OPENCLEXT_1_2 "cl_khr_gl_msaa_sharing" ∈ sampleExtensions ∧
    (OpenCLOptions.Construct sampleExtensions sampleOptionsNoOpenCL storageAllOnes).ext
      "cl_khr_gl_msaa_sharing" = 1 := by
  decide

/-- Claim C4: with the OpenCL family active (`OpenCL` non-zero), a version-gated
extension is 1 exactly when `OpenCLVersion >= 120`, and 0 exactly when
`OpenCLVersion < 120`, whatever the storage held before. -/
theorem OpenCLOptions_active_gated_iff (LangOpts : LangOptions) (exts : List ExtEntry)
    (storage : OpenCLOptions) (nm : String) (hwf : ExtList.WellFormed exts)
    (hcl : LangOpts.OpenCL ≠ 0) (he : ExtEntry.OPENCLEXT_1_2 nm ∈ exts) :
    ((OpenCLOptions.Construct exts LangOpts storage).ext nm = 1 ↔
      LangOpts.OpenCLVersion ≥ 120) ∧
    ((OpenCLOptions.Construct exts LangOpts storage).ext nm = 0 ↔
      LangOpts.OpenCLVersion < 120) := by
  have h := OpenCLOptions.Construct_ext_of_mem LangOpts exts storage hwf he
  simp only [ExtEntry.nm] at h
  rw [h]
  simp only [OpenCLOptions.expand]
  rw [if_pos hcl]
  by_cases hv : LangOpts.OpenCLVersion ≥ 120
  · rw [if_pos hv, OpenCLOptions.assign_ext_same, storeBits_one_toUnsigned]
    omega
  · rw [if_neg hv, OpenCLOptions.assign_ext_same, storeBits_one_toUnsigned]
    omega

/-- Witness of C4: on the sample list with OpenCL active and version 120 the gated
extension is available although the storage read 0 before. -/
theorem OpenCLOptions_active_gated_iff_witness :
    ExtList.WellFormed sampleExtensions ∧ sampleOptions.OpenCL ≠ 0 ∧
    sampleOptions.OpenCLVersion = 120 ∧
    (OpenCLOptions.Construct sampleExtensions sampleOptions storageAllZeros).ext
      "cl_khr_gl_msaa_sharing" = 1 :=
  ⟨by decide, by decide, by decide,
    (OpenCLOptions_active_gated_iff sampleOptions sampleExtensions storageAllZeros
      "cl_khr_gl_msaa_sharing" (by decide) (by decide) (by decide)).1.mpr (by decide)⟩

/-- Claim C5: for every configuration object (any `OpenCL` flag, any
`OpenCLVersion`) an extension listed through plain `OPENCLEXT` is 0 after
construction, whatever the storage held before. -/
theorem OpenCLOptions_plain_unavailable (LangOpts : LangOptions) (exts : List ExtEntry)
    (storage : OpenCLOptions) (nm : String) (hwf : ExtList.WellFormed exts)
    (he : ExtEntry.OPENCLEXT nm ∈ exts) :
    (OpenCLOptions.Construct exts LangOpts storage).ext nm = 0 := by
  have h := OpenCLOptions.Construct_ext_of_mem LangOpts exts storage hwf he
  simp only [ExtEntry.nm] at h
  rw [h]
  simp only [OpenCLOptions.expand]
  rw [OpenCLOptions.assign_ext_same, storeBits_one_toUnsigned]

/-- Witness of C5: the plain extension of the sample list is 0 with OpenCL 1.2
active and storage that read 1 before. -/
theorem OpenCLOptions_plain_unavailable_witness :
    ExtList.WellFormed sampleExtensions ∧
    ExtEntry.OPENCLEXT "cl_khr_fp16" ∈ sampleExtensions ∧
    (OpenCLOptions.Construct sampleExtensions sampleOptions storageAllOnes).ext
      "cl_khr_fp16" = 0 :=
  ⟨by decide, by decide,
    OpenCLOptions_plain_unavailable sampleOptions sampleExtensions storageAllOnes
      "cl_khr_fp16" (by decide) (by decide)⟩

/-! ## Floating point snapshot -/

/-- The snapshot keeps the low bit of the contraction field. -/
theorem FPOptions.ConstructFrom_fp_contract (LangOpts : LangOptions) :
    (FPOptions.ConstructFrom LangOpts).fp_contract = LangOpts.DefaultFPContract % 2 :=
  storeBits_one_toUnsigned _

/-- Claim C6: for a configuration object whose contraction field holds a one-bit
value (the field is a boolean PLAIN option), the snapshot `FPOptions(c)` has
`fp_contract` equal to `c.DefaultFPContract`: 1 when the field is on, 0 when it
is off. -/
theorem FPOptions_copies_contraction (c : LangOptions) (h : c.DefaultFPContract < 2) :
    (FPOptions.ConstructFrom c).fp_contract = c.DefaultFPContract ∧
    (c.DefaultFPContract = 1 → (FPOptions.ConstructFrom c).fp_contract = 1) ∧
    (c.DefaultFPContract = 0 → (FPOptions.ConstructFrom c).fp_contract = 0) := by
  have heq : (FPOptions.ConstructFrom c).fp_contract = c.DefaultFPContract := by
    rw [FPOptions.ConstructFrom_fp_contract]
    exact Nat.mod_eq_of_lt h
  exact ⟨heq, fun h1 => heq.trans h1, fun h0 => heq.trans h0⟩

/-- Witness of C6: the sample configuration has contraction on, and so has its
snapshot. -/
theorem FPOptions_copies_contraction_witness :
    sampleOptions.DefaultFPContract < 2 ∧ sampleOptions.DefaultFPContract = 1 ∧
    (FPOptions.ConstructFrom sampleOptions).fp_contract = 1 :=
  ⟨by decide, by decide,
    (FPOptions_copies_contraction sampleOptions (by decide)).2.1 (by decide)⟩

/-- Claim C7: the default-constructed snapshot `FPOptions()` has contraction off,
its `fp_contract` field is 0. -/
theorem FPOptions_default_off : FPOptions.Construct.fp_contract = 0 := by
  decide

/-! ## Construction and selective reset of `LangOptions` -/

/-- Claim C8: `resetNonModularOptions` is idempotent, applying it twice yields the
same object (bit-fields, runtime descriptor and strings) as applying it once. -/
theorem resetNonModularOptions_idempotent (T : OptionTable) (c : LangOptions) :
    (c.resetNonModularOptions T).resetNonModularOptions T = c.resetNonModularOptions T := by
  unfold LangOptions.resetNonModularOptions
  congr 2
  · funext p
    by_cases hm : (T.plainEntry p).modular = true <;> simp [hm]
  · funext o
    by_cases hm : (T.enumEntry o).modular = true <;> simp [hm]

/-- Claim C9: after `resetNonModularOptions`, every option field tagged modular holds
the value it held before the call, and every option field tagged non-modular
equals the default of its entry (defaults being values their fields can hold). -/
theorem resetNonModularOptions_frame (T : OptionTable) (c : LangOptions)
    (hT : T.DefaultsFit) :
    (∀ p, (T.plainEntry p).modular = true →
      (c.resetNonModularOptions T).plainField p = c.plainField p) ∧
    (∀ o, (T.enumEntry o).modular = true →
      (c.resetNonModularOptions T).get o = c.get o) ∧
    (∀ p, (T.plainEntry p).modular = false →
      (c.resetNonModularOptions T).plainField p = (T.plainEntry p).Default) ∧
    (∀ o, (T.enumEntry o).modular = false →
      (c.resetNonModularOptions T).get o = (T.enumEntry o).Default) := by
  unfold LangOptions.resetNonModularOptions LangOptions.get
  refine ⟨?_, ?_, ?_, ?_⟩
  · intro p hm
    simp [hm]
  · intro o hm
    simp [hm]
  · intro p hm
    simp only [hm]
    exact storeBits_toUnsigned_of_representable (hT.1 p)
  · intro o hm
    simp only [hm]
    exact storeBits_toUnsigned_of_representable (hT.2 o)

/-- The defaults of the sample registry are values their fields can hold. -/
theorem sampleTable_defaultsFit : sampleTable.DefaultsFit := by
  constructor
  · intro p
    cases p <;> (unfold Representable; simp [sampleTable])
  · intro o
    cases o <;> (unfold Representable; simp [sampleTable, SOB_Undefined])

/-- Witness of C9 on the sample configuration: the modular `OpenCLVersion` keeps 120,
the non-modular `other 1` goes from 1 back to its default 0, and the non-modular
enumeration option `other 1` goes from 0 back to its default 1. -/
theorem resetNonModularOptions_frame_witness :
    (sampleOptions.resetNonModularOptions sampleTable).OpenCLVersion = 120 ∧
    sampleOptions.plainField (PlainOpt.other 1) = 1 ∧
    (sampleOptions.resetNonModularOptions sampleTable).plainField (PlainOpt.other 1) = 0 ∧
    sampleOptions.get (EnumOpt.other 1) = 0 ∧
    (sampleOptions.resetNonModularOptions sampleTable).get (EnumOpt.other 1) = 1 :=
  have h := resetNonModularOptions_frame sampleTable sampleOptions sampleTable_defaultsFit
  ⟨(h.1 PlainOpt.OpenCLVersion (by decide)).trans (by decide), by decide,
    h.2.2.1 (PlainOpt.other 1) (by decide), by decide, h.2.2.2 (EnumOpt.other 1) (by decide)⟩

/-- Claim C10: the constructor `LangOptions()` yields an object in which every PLAIN
field and every ENUM field equals the default of its entry (defaults being values
their fields can hold), the three strings are empty and the runtime descriptor
is its default variant. -/
theorem Construct_defaults (T : OptionTable) (hT : T.DefaultsFit) :
    (∀ p, (LangOptions.Construct T).plainField p = (T.plainEntry p).Default) ∧
    (∀ o, (LangOptions.Construct T).get o = (T.enumEntry o).Default) ∧
    (LangOptions.Construct T).ObjCConstantStringClass = "" ∧
    (LangOptions.Construct T).OverflowHandler = "" ∧
    (LangOptions.Construct T).CurrentModule = "" ∧
    (LangOptions.Construct T).ObjCRuntime = ObjCRuntime.defaultVariant := by
  unfold LangOptions.Construct LangOptions.get
  refine ⟨?_, ?_, rfl, rfl, rfl, rfl⟩
  · intro p
    exact storeBits_toUnsigned_of_representable (hT.1 p)
  · intro o
    exact storeBits_toUnsigned_of_representable (hT.2 o)

/-- Witness of C10 on the sample registry: the constructed object has signed
overflow undefined, OpenCL off, and an empty module name. -/
theorem Construct_defaults_witness :
    (LangOptions.Construct sampleTable).getSignedOverflowBehavior = SOB_Undefined ∧
    (LangOptions.Construct sampleTable).OpenCL = 0 ∧
    (LangOptions.Construct sampleTable).CurrentModule = "" :=
  have h := Construct_defaults sampleTable sampleTable_defaultsFit
  ⟨h.2.1 EnumOpt.SignedOverflowBehavior, h.1 PlainOpt.OpenCL, h.2.2.2.2.1⟩

/-! ## Frame of the mutators -/

/-- Claim C11: a mutator `set##Name` changes only its own field.  After
`c.set X v` every other ENUM option reads as before, every PLAIN field is
unchanged, the runtime descriptor and the three strings are unchanged, and
`isSignedOverflowDefined` is unchanged by every mutator other than
`setSignedOverflowBehavior`. -/
theorem set_frame (T : OptionTable) (c : LangOptions) (X : EnumOpt) (v : Nat) :
    (∀ Y, Y ≠ X → (c.set T X v).get Y = c.get Y) ∧
    (∀ p, (c.set T X v).plainField p = c.plainField p) ∧
    (c.set T X v).ObjCRuntime = c.ObjCRuntime ∧
    (c.set T X v).ObjCConstantStringClass = c.ObjCConstantStringClass ∧
    (c.set T X v).OverflowHandler = c.OverflowHandler ∧
    (c.set T X v).CurrentModule = c.CurrentModule ∧
    (X ≠ EnumOpt.SignedOverflowBehavior →
      (c.set T X v).isSignedOverflowDefined = c.isSignedOverflowDefined) := by
  have hget : ∀ Y, Y ≠ X → (c.set T X v).get Y = c.get Y := by
    intro Y hY
    unfold LangOptions.get LangOptions.set
    exact Function.update_noteq hY _ _
  refine ⟨hget, fun _ => rfl, rfl, rfl, rfl, rfl, ?_⟩
  intro hX
  unfold LangOptions.isSignedOverflowDefined LangOptions.getSignedOverflowBehavior
  rw [hget EnumOpt.SignedOverflowBehavior (Ne.symm hX)]

/-- Witness of C11 on the sample configuration: writing `other 0` changes that field
from 0 to 2 and leaves `SignedOverflowBehavior`, `isSignedOverflowDefined` and
the module name as they were. -/
theorem set_frame_witness :
    sampleOptions.get (EnumOpt.other 0) = 0 ∧
    (sampleOptions.set sampleTable (EnumOpt.other 0) 2).get (EnumOpt.other 0) = 2 ∧
    (sampleOptions.set sampleTable (EnumOpt.other 0) 2).get EnumOpt.SignedOverflowBehavior
      = SOB_Defined ∧
    (sampleOptions.set sampleTable (EnumOpt.other 0) 2).isSignedOverflowDefined = true ∧
    (sampleOptions.set sampleTable (EnumOpt.other 0) 2).CurrentModule = "M" :=
  have h := set_frame sampleTable sampleOptions (EnumOpt.other 0) 2
  ⟨by decide, by decide,
    (h.1 EnumOpt.SignedOverflowBehavior (by decide)).trans (by decide),
    (h.2.2.2.2.2.2 (by decide)).trans (by decide),
    h.2.2.2.2.2.1.trans (by decide)⟩

/-! ## Monotonicity of the extension gates -/

/-- Claim C12: within the active family, availability is monotone in the version.
For two configuration objects with `OpenCL` non-zero and
`c1.OpenCLVersion <= c2.OpenCLVersion`, every extension of the list that is
available in `OpenCLOptions(c1)` is available in `OpenCLOptions(c2)`, whatever
the two storages held before construction. -/
theorem OpenCLOptions_monotone (c1 c2 : LangOptions) (exts : List ExtEntry)
    (s1 s2 : OpenCLOptions) (e : ExtEntry) (hwf : ExtList.WellFormed exts)
    (h1 : c1.OpenCL ≠ 0) (h2 : c2.OpenCL ≠ 0)
    (hle : c1.OpenCLVersion ≤ c2.OpenCLVersion) (he : e ∈ exts)
    (hav : (OpenCLOptions.Construct exts c1 s1).ext e.nm = 1) :
    (OpenCLOptions.Construct exts c2 s2).ext e.nm = 1 := by
  rw [OpenCLOptions.Construct_ext_of_mem c1 exts s1 hwf he] at hav
  rw [OpenCLOptions.Construct_ext_of_mem c2 exts s2 hwf he]
  cases e with
  | OPENCLEXT nm =>
    simp only [OpenCLOptions.expand, ExtEntry.nm] at hav
    rw [OpenCLOptions.assign_ext_same, storeBits_one_toUnsigned] at hav
    omega
  | OPENCLEXT_1_2 nm =>
    simp only [OpenCLOptions.expand, ExtEntry.nm] at hav ⊢
    rw [if_pos h1] at hav
    rw [if_pos h2]
    by_cases hv : c1.OpenCLVersion ≥ 120
    · have hv2 : c2.OpenCLVersion ≥ 120 := le_trans hv hle
      rw [if_pos hv2, OpenCLOptions.assign_ext_same, storeBits_one_toUnsigned]
    · rw [if_neg hv, OpenCLOptions.assign_ext_same, storeBits_one_toUnsigned] at hav
      omega

/-- Witness of C12: the gated extension of the sample list, available at version 120,
is available at version 200. -/
theorem OpenCLOptions_monotone_witness :
    sampleOptions.OpenCLVersion = 120 ∧ sampleOptionsVersion200.OpenCLVersion = 200 ∧
    (OpenCLOptions.Construct sampleExtensions sampleOptions storageAllZeros).ext
      "cl_khr_gl_msaa_sharing" = 1 ∧
    (OpenCLOptions.Construct sampleExtensions sampleOptionsVersion200 storageAllZeros).ext
      "cl_khr_gl_msaa_sharing" = 1 :=
  ⟨by decide, by decide, by decide,
    OpenCLOptions_monotone sampleOptions sampleOptionsVersion200 sampleExtensions
      storageAllZeros storageAllZeros (ExtEntry.OPENCLEXT_1_2 "cl_khr_gl_msaa_sharing")
      (by decide) (by decide) (by decide) (by decide) (by decide) (by decide)⟩

/-! ## Truncation in the mutators -/

/-- Claim C13: the mutator performs no range check and always returns.  For every
ENUM option of width `Bits` and every value, with `u` its representation after
`static_cast<unsigned>`, the following `get` returns `u mod 2 ^ Bits`, which is
less than `2 ^ Bits`; for a value that already fits `unsigned` this is the value
itself modulo `2 ^ Bits`. -/
theorem set_get_truncates (T : OptionTable) (c : LangOptions) (X : EnumOpt) (Value : Nat) :
    (c.set T X Value).get X = toUnsigned Value % 2 ^ (T.enumEntry X).Bits ∧
    (c.set T X Value).get X < 2 ^ (T.enumEntry X).Bits ∧
    (Value < 2 ^ 32 → (c.set T X Value).get X = Value % 2 ^ (T.enumEntry X).Bits) := by
  have hget : (c.set T X Value).get X = toUnsigned Value % 2 ^ (T.enumEntry X).Bits := by
    unfold LangOptions.get LangOptions.set
    simp only [Function.update_same]
    rfl
  refine ⟨hget, ?_, ?_⟩
  · rw [hget]
    exact Nat.mod_lt _ (pow_pos (by decide) _)
  · intro hlt
    rw [hget]
    unfold toUnsigned
    rw [Nat.mod_eq_of_lt hlt]

/-- Witness of C13: the out-of-range values 7 and 4 written to the two-bit field
`SignedOverflowBehavior` read back as 3 and 0. -/
theorem set_get_truncates_witness :
    7 ∉ (sampleTable.enumEntry EnumOpt.SignedOverflowBehavior).enumerators ∧
    (sampleOptions.set sampleTable EnumOpt.SignedOverflowBehavior 7).get
      EnumOpt.SignedOverflowBehavior = 3 ∧
    (sampleOptions.set sampleTable EnumOpt.SignedOverflowBehavior 4).get
      EnumOpt.SignedOverflowBehavior = 0 :=
  ⟨by decide,
    ((set_get_truncates sampleTable sampleOptions EnumOpt.SignedOverflowBehavior 7).2.2
      (by decide)).trans (by decide),
    ((set_get_truncates sampleTable sampleOptions EnumOpt.SignedOverflowBehavior 4).2.2
      (by decide)).trans (by decide)⟩

end clang
